import Mathlib

/-!
Shallow embedding of `app/services/visit_counter.py` (class `VisitCounterService`).

Python dictionaries (`_write_buffer`, `_cache`) are modelled as association
lists with unique keys, the external Redis store as a total function
`String → Nat` (Redis `GET` returns nil for unknown keys, which the code
converts to 0 via `int(... or 0)`; `INCRBY` zero-initialises).  `time.time()`
is modelled as one `Nat` argument `now` per public call.  Every Redis call
site can raise; a `Bool` oracle per call site says whether that call
succeeds (`true`) or raises (`false`):
  - `gu` : the `GET` in `increment_visit` / `get_visit_count`;
  - `feu` : `pipeline.execute()` inside `_flush_buffer`;
  - `fgu` : the `GET`s of the post-success cache-refresh loop inside
    `_flush_buffer` (one flag for the whole loop: the first attempted `GET`
    raises when the flag is `false`).
All `try/except` blocks of the source are translated explicitly, so the
embedded operations are total functions returning the final state and the
response dictionary `{"visits": ..., "served_via": ...}`.
-/

namespace VisitCounter

/-- Entry of the read cache `_cache`: the Python dict
`{"count": ..., "timestamp": ...}`. -/
structure CacheEntry where
  count : Nat
  timestamp : Nat
deriving DecidableEq

/-- Response dictionary returned by `increment_visit` and `get_visit_count`. -/
structure Response where
  visits : Nat
  served_via : String
deriving DecidableEq

/-- The mutable fields of the `VisitCounterService` singleton, together with
the contents of the external Redis store. -/
structure SvcState where
  cache : String → Option CacheEntry
  buffer : List (String × Nat)
  lastFlushTime : Nat
  store : String → Nat

/-- `self.cache_ttl = 5`. -/
def cache_ttl : Nat := 5

/-- `self.flush_interval = 30`. -/
def flush_interval : Nat := 30

/-- Python dict read with default: `d.get(k, 0)` (also `int(... or 0)` style
uses on the buffer). -/
def lookupD : List (String × Nat) → String → Nat
  | [], _ => 0
  | p :: t, k => if p.1 = k then p.2 else lookupD t k

/-- Python dict write `d[k] = v`: replaces the existing binding in place, or
appends a new one. -/
def setD : List (String × Nat) → String → Nat → List (String × Nat)
  | [], k, v => [(k, v)]
  | p :: t, k, v => if p.1 = k then (k, v) :: t else p :: setD t k v

/-- The idiom `if k not in d: d[k] = 0` followed by `d[k] += c`. -/
def addD (l : List (String × Nat)) (k : String) (c : Nat) : List (String × Nat) :=
  setD l k (lookupD l k + c)

/-- The `for` loop re-merging a snapshot into the buffer
(`_flush_buffer`, `except` branch, lines 154-157). -/
def remergeInto : List (String × Nat) → List (String × Nat) → List (String × Nat)
  | buf, [] => buf
  | buf, p :: t => remergeInto (addD buf p.1 p.2) t

/-- The pipeline of `INCRBY`s applied by `pipeline.execute()`
(`_flush_buffer`, lines 139-142). -/
def applyDeltas : (String → Nat) → List (String × Nat) → String → Nat
  | st, [] => st
  | st, p :: t => applyDeltas (fun k => if p.1 = k then st k + p.2 else st k) t

/-- The post-success cache refresh loop (`_flush_buffer`, lines 144-149):
for each snapshot key that is present in `_cache`, set its entry to the
freshly read durable total with a fresh timestamp. -/
def cacheRefresh (c : String → Option CacheEntry) (st : String → Nat)
    (now : Nat) : List String → (String → Option CacheEntry)
  | [] => c
  | k :: t =>
    if (c k).isSome then
      cacheRefresh (fun j => if j = k then some ⟨st k, now⟩ else c j) st now t
    else cacheRefresh c st now t

/-- `_flush_buffer` (lines 128-157).  `feu` tells whether `pipeline.execute()`
succeeds, `fgu` whether the cache-refresh `GET`s succeed.  Any exception sends
control to the `except` branch, which re-merges the snapshot into the (now
empty) buffer; an exception raised by a refresh `GET` happens before any
cache entry was refreshed, but after the `INCRBY`s were applied. -/
def flushBuffer (feu fgu : Bool) (now : Nat) (s : SvcState) : SvcState :=
  if s.buffer = [] then s
  else if feu then
    if fgu || s.buffer.all (fun p => (s.cache p.1).isNone) then
      { s with buffer := [], store := applyDeltas s.store s.buffer,
               cache := cacheRefresh s.cache (applyDeltas s.store s.buffer) now
                 (s.buffer.map Prod.fst) }
    else
      { s with buffer := remergeInto [] s.buffer,
               store := applyDeltas s.store s.buffer }
  else
    { s with buffer := remergeInto [] s.buffer }

/-- The due-flush check at the top of `increment_visit` (lines 44-48) and in
the miss path of `get_visit_count` (lines 96-100): if
`current_time - last_flush_time >= flush_interval`, run `_flush_buffer` and
then set `last_flush_time = current_time` — unconditionally, since
`_flush_buffer` swallows every exception. -/
def dueFlushCheck (feu fgu : Bool) (now : Nat) (s : SvcState) : SvcState :=
  if flush_interval ≤ now - s.lastFlushTime then
    let s1 := flushBuffer feu fgu now s
    { s1 with lastFlushTime := now }
  else s

/-- `increment_visit` (lines 41-78).  The inner `try` around the Redis `GET`
turns a raise into `redis_count = 0`; the outer `except` (line 76) is
unreachable because every raising call inside the `try` is already handled. -/
def increment_visit (feu fgu gu : Bool) (now : Nat) (page_id : String)
    (s : SvcState) : SvcState × Response :=
  let s1 := dueFlushCheck feu fgu now s
  let buf := addD s1.buffer page_id 1
  let redis_count := if gu then s1.store page_id else 0
  let buffer_count := lookupD buf page_id
  let total_count := redis_count + buffer_count
  let c := fun k => if k = page_id then some (⟨total_count, now⟩ : CacheEntry) else s1.cache k
  ({ s1 with buffer := buf, cache := c }, ⟨total_count, "redis"⟩)

/-- The cache-miss / cache-stale path of `get_visit_count` (lines 95-122). -/
def readMiss (feu fgu gu : Bool) (now : Nat) (page_id : String)
    (s : SvcState) : SvcState × Response :=
  let s1 := dueFlushCheck feu fgu now s
  let redis_count := if gu then s1.store page_id else 0
  let total_count := redis_count + lookupD s1.buffer page_id
  let c := fun k => if k = page_id then some (⟨total_count, now⟩ : CacheEntry) else s1.cache k
  ({ s1 with cache := c }, ⟨total_count, "redis"⟩)

/-- `get_visit_count` (lines 80-126): serve from `_cache` when the entry is
younger than `cache_ttl`, otherwise fall through to the miss path. -/
def get_visit_count (feu fgu gu : Bool) (now : Nat) (page_id : String)
    (s : SvcState) : SvcState × Response :=
  match s.cache page_id with
  | some e =>
    if now - e.timestamp < cache_ttl then (s, ⟨e.count, "in_memory"⟩)
    else readMiss feu fgu gu now page_id s
  | none => readMiss feu fgu gu now page_id s

/-- One public call of the service, with its failure oracles and its
`time.time()` value. -/
inductive Ev where
  | visit (feu fgu gu : Bool) (t : Nat) (k : String)
  | read (feu fgu gu : Bool) (t : Nat) (k : String)
deriving DecidableEq

/-- The cache-refresh oracle of the internal flush (if any) of an event. -/
def Ev.flushGetOk : Ev → Bool
  | .visit _ g _ _ _ => g
  | .read _ g _ _ _ => g

/-- State transition of one public call. -/
def step (s : SvcState) : Ev → SvcState
  | .visit feu fgu gu t k => (increment_visit feu fgu gu t k s).1
  | .read feu fgu gu t k => (get_visit_count feu fgu gu t k s).1

/-- Run a sequence of public calls. -/
def runTrace (s : SvcState) (evs : List Ev) : SvcState :=
  evs.foldl step s

/-- Does this event record a visit to key `k`? -/
def Ev.isVisitTo (k : String) : Ev → Bool
  | .visit _ _ _ _ j => j = k
  | .read _ _ _ _ _ => false

/-- Number of `recordVisit(k)` calls in a trace. -/
def countVisits (k : String) (evs : List Ev) : Nat :=
  (evs.filter (Ev.isVisitTo k)).length

/-- The freshly initialised service in front of an empty store. -/
def s0 : SvcState :=
  { cache := fun _ => none, buffer := [], lastFlushTime := 0, store := fun _ => 0 }

/-- Sum of the deltas bound to key `k` across all entries of an association
list (equal to `lookupD` once keys are unique). -/
def keySum : List (String × Nat) → String → Nat
  | [], _ => 0
  | p :: t, k => (if p.1 = k then p.2 else 0) + keySum t k

/-- A Python dict never binds the same key twice; the association lists we
build from dict operations keep that invariant. -/
def NodupKeys (l : List (String × Nat)) : Prop :=
  (l.map Prod.fst).Nodup

/-- The accounting invariant: durable total plus buffered delta for key `k`
equals `n`, and the buffer is a well-formed dict. -/
def Inv (k : String) (n : Nat) (s : SvcState) : Prop :=
  NodupKeys s.buffer ∧ s.store k + lookupD s.buffer k = n

/-- A concrete interleaving for the `c1_no_lost_increments` witness: three
visits and one read of key "home", with the flush triggered at time 40
failing its batched write and the flush triggered at time 80 succeeding. -/
def evsC1 : List Ev :=
  [.visit true true true 0 "home", .visit false true true 40 "home",
   .read true true true 50 "home", .visit true true true 80 "home"]

/-- A service state with one buffered increment for "home" and a cache entry
for "home". -/
def stateCachedHome : SvcState :=
  { cache := fun k => if k = "home" then some ⟨1, 0⟩ else none,
    buffer := [("home", 1)], lastFlushTime := 0, store := fun _ => 0 }

/-- A service state with one buffered increment for "home" and no cache
entry at all. -/
def stateUncachedHome : SvcState :=
  { cache := fun _ => none, buffer := [("home", 1)], lastFlushTime := 0,
    store := fun _ => 0 }

/-- A run of `increment_visit` calls for key `k` at the given times, with
every Redis call failing (`StoreUnavailable` on every store call). -/
def degradedRun (k : String) : SvcState → List Nat → SvcState
  | s, [] => s
  | s, t :: ts => degradedRun k (increment_visit false false false t k s).1 ts

/-- What holds after `n` accepted increments of `k` with the store down: the
buffer alone carries the count, and any cache entry for `k` shows it. -/
def DegInv (k : String) (n : Nat) (s : SvcState) : Prop :=
  NodupKeys s.buffer ∧ lookupD s.buffer k = n ∧
    ∀ e, s.cache k = some e → e.count = n

theorem lookupD_setD (l : List (String × Nat)) (k k' : String) (v : Nat) :
    lookupD (setD l k v) k' = if k = k' then v else lookupD l k' := by
  induction l with
  | nil => simp [setD, lookupD]
  | cons p t ih =>
    by_cases hp : p.1 = k
    · subst hp
      simp only [setD, if_pos rfl, lookupD]
      by_cases h : p.1 = k' <;> simp [h]
    · by_cases hk : p.1 = k'
      · subst hk
        simp [setD, lookupD, hp, Ne.symm hp]
      · simp [setD, lookupD, hp, hk, ih]

theorem lookupD_addD (l : List (String × Nat)) (k k' : String) (c : Nat) :
    lookupD (addD l k c) k' = lookupD l k' + if k = k' then c else 0 := by
  rw [addD, lookupD_setD]
  by_cases h : k = k'
  · subst h; simp
  · simp [h]

theorem mem_keys_setD (l : List (String × Nat)) (k k' : String) (v : Nat) :
    k' ∈ (setD l k v).map Prod.fst ↔ k' = k ∨ k' ∈ l.map Prod.fst := by
  induction l with
  | nil => simp [setD]
  | cons p t ih =>
    by_cases hp : p.1 = k
    · subst hp
      simp [setD]
    · simp [setD, hp, ih]
      tauto

theorem nodupKeys_setD (l : List (String × Nat)) (k : String) (v : Nat)
    (h : NodupKeys l) : NodupKeys (setD l k v) := by
  induction l with
  | nil => simp [setD, NodupKeys]
  | cons p t ih =>
    rw [NodupKeys, List.map_cons, List.nodup_cons] at h
    by_cases hp : p.1 = k
    · rw [NodupKeys, setD, if_pos hp, List.map_cons, List.nodup_cons]
      exact ⟨hp ▸ h.1, h.2⟩
    · rw [NodupKeys, setD, if_neg hp, List.map_cons, List.nodup_cons]
      refine ⟨fun hm => ?_, ih h.2⟩
      rcases (mem_keys_setD t k p.1 v).1 hm with h1 | h1
      · exact hp h1
      · exact h.1 h1

theorem nodupKeys_addD (l : List (String × Nat)) (k : String) (c : Nat)
    (h : NodupKeys l) : NodupKeys (addD l k c) :=
  nodupKeys_setD l k _ h

theorem keySum_eq_zero_of_not_mem (l : List (String × Nat)) (k : String)
    (h : k ∉ l.map Prod.fst) : keySum l k = 0 := by
  induction l with
  | nil => rfl
  | cons p t ih =>
    simp only [List.map_cons, List.mem_cons] at h
    push_neg at h
    rw [keySum, if_neg (fun hh => h.1 hh.symm), ih h.2]

theorem lookupD_eq_keySum (l : List (String × Nat)) (k : String)
    (h : NodupKeys l) : lookupD l k = keySum l k := by
  induction l with
  | nil => rfl
  | cons p t ih =>
    rw [NodupKeys, List.map_cons, List.nodup_cons] at h
    by_cases hp : p.1 = k
    · rw [lookupD, keySum, if_pos hp, if_pos hp,
        keySum_eq_zero_of_not_mem t k (hp ▸ h.1)]
      omega
    · rw [lookupD, keySum, if_neg hp, if_neg hp, ih h.2]
      omega

theorem applyDeltas_apply (l : List (String × Nat)) (st : String → Nat)
    (k : String) : applyDeltas st l k = st k + keySum l k := by
  induction l generalizing st with
  | nil => rfl
  | cons p t ih =>
    rw [applyDeltas, ih]
    by_cases hp : p.1 = k
    · rw [keySum, if_pos hp, if_pos hp]
      omega
    · rw [keySum, if_neg hp, if_neg hp]
      omega

theorem lookupD_remergeInto (buf snap : List (String × Nat)) (k : String) :
    lookupD (remergeInto buf snap) k = lookupD buf k + keySum snap k := by
  induction snap generalizing buf with
  | nil => simp [remergeInto, keySum]
  | cons p t ih =>
    rw [remergeInto, ih, lookupD_addD, keySum]
    by_cases hp : p.1 = k
    · rw [if_pos hp]
      omega
    · rw [if_neg hp]
      omega

theorem nodupKeys_remergeInto (buf snap : List (String × Nat))
    (h : NodupKeys buf) : NodupKeys (remergeInto buf snap) := by
  induction snap generalizing buf with
  | nil => exact h
  | cons p t ih =>
    rw [remergeInto]
    exact ih _ (nodupKeys_addD _ _ _ h)

theorem nodupKeys_nil : NodupKeys [] := by
  simp [NodupKeys]

/-- A flush whose cache-refresh reads succeed preserves the accounting
invariant, whether or not the batched write succeeds. -/
theorem flushBuffer_inv (feu : Bool) (now : Nat) (k : String) (n : Nat)
    (s : SvcState) (h : Inv k n s) : Inv k n (flushBuffer feu true now s) := by
  obtain ⟨hn, hv⟩ := h
  rw [flushBuffer]
  by_cases hb : s.buffer = []
  · rw [if_pos hb]
    exact ⟨hn, hv⟩
  · rw [if_neg hb]
    cases feu with
    | true =>
      rw [if_pos rfl,
        if_pos (by simp : (true || s.buffer.all fun p => (s.cache p.1).isNone) = true)]
      refine ⟨nodupKeys_nil, ?_⟩
      show applyDeltas s.store s.buffer k + lookupD [] k = n
      rw [applyDeltas_apply, ← lookupD_eq_keySum _ _ hn, lookupD]
      omega
    | false =>
      rw [if_neg (by simp)]
      refine ⟨nodupKeys_remergeInto [] _ nodupKeys_nil, ?_⟩
      show s.store k + lookupD (remergeInto [] s.buffer) k = n
      rw [lookupD_remergeInto, ← lookupD_eq_keySum _ _ hn, lookupD]
      omega

/-- A fully successful flush leaves the write buffer empty. -/
theorem flushBuffer_true_true_buffer (tf : Nat) (s : SvcState) :
    (flushBuffer true true tf s).buffer = [] := by
  rw [flushBuffer]
  by_cases hb : s.buffer = []
  · rw [if_pos hb]
    exact hb
  · rw [if_neg hb, if_pos rfl,
      if_pos (by simp : (true || s.buffer.all fun p => (s.cache p.1).isNone) = true)]

theorem dueFlushCheck_inv (feu : Bool) (now : Nat) (k : String) (n : Nat)
    (s : SvcState) (h : Inv k n s) : Inv k n (dueFlushCheck feu true now s) := by
  rw [dueFlushCheck]
  by_cases hd : flush_interval ≤ now - s.lastFlushTime
  · rw [if_pos hd]
    exact flushBuffer_inv feu now k n s h
  · rw [if_neg hd]
    exact h

theorem readMiss_inv (feu gu : Bool) (now : Nat) (j k : String) (n : Nat)
    (s : SvcState) (h : Inv k n s) : Inv k n (readMiss feu true gu now j s).1 := by
  have h1 := dueFlushCheck_inv feu now k n s h
  exact ⟨h1.1, h1.2⟩

theorem countVisits_cons (k : String) (e : Ev) (t : List Ev) :
    countVisits k (e :: t) = (if e.isVisitTo k then 1 else 0) + countVisits k t := by
  rw [countVisits, countVisits, List.filter_cons]
  by_cases he : e.isVisitTo k
  · simp [he]
    omega
  · simp [he]

/-- One public call, whose internal flush (if any) has working cache-refresh
reads, moves the accounting invariant by 1 exactly on a visit to `k`. -/
theorem step_inv (k : String) (n : Nat) (s : SvcState) (e : Ev)
    (he : e.flushGetOk = true) (h : Inv k n s) :
    Inv k (n + if e.isVisitTo k then 1 else 0) (step s e) := by
  cases e with
  | visit feu fgu gu t j =>
    simp only [Ev.flushGetOk] at he
    subst he
    have h1 := dueFlushCheck_inv feu t k n s h
    simp only [step, increment_visit, Ev.isVisitTo]
    refine ⟨nodupKeys_addD _ _ _ h1.1, ?_⟩
    show (dueFlushCheck feu true t s).store k
        + lookupD (addD (dueFlushCheck feu true t s).buffer j 1) k = _
    rw [lookupD_addD]
    have h2 := h1.2
    by_cases hj : j = k
    · rw [if_pos hj, if_pos (by simp [hj])]
      omega
    · rw [if_neg hj, if_neg (by simp [hj])]
      omega
  | read feu fgu gu t j =>
    simp only [Ev.flushGetOk] at he
    subst he
    simp only [step, get_visit_count, Ev.isVisitTo]
    cases hc : s.cache j with
    | some e =>
      by_cases ht : t - e.timestamp < cache_ttl
      · simpa [ht] using h
      · simpa [ht] using readMiss_inv feu gu t j k n s h
    | none =>
      simpa using readMiss_inv feu gu t j k n s h

theorem runTrace_inv (k : String) (evs : List Ev) :
    ∀ (n : Nat) (s : SvcState), (∀ e ∈ evs, e.flushGetOk = true) → Inv k n s →
      Inv k (n + countVisits k evs) (runTrace s evs) := by
  induction evs with
  | nil =>
    intro n s _ h
    simpa [runTrace, countVisits] using h
  | cons e t ih =>
    intro n s hall h
    have he := hall e (List.mem_cons_self _ _)
    have ht : ∀ x ∈ t, x.flushGetOk = true := fun x hx => hall x (List.mem_cons_of_mem _ hx)
    have hrec := ih _ _ ht (step_inv k n s e he h)
    rw [countVisits_cons, ← Nat.add_assoc]
    show Inv k _ (List.foldl step s (e :: t))
    rw [List.foldl_cons]
    exact hrec

/-- Claim C1: no lost increments.  For every sequence of public calls whose
flush cycles either succeed outright or fail at the batched store write
(cache-refresh reads of a successful flush do not raise), the durable store
total for `k` after a final successful flush equals the number of
`recordVisit(k)` calls in the sequence: a failed flush re-merges the taken
snapshot into the write buffer by key-wise addition, so no accepted
increment is dropped. -/
theorem c1_no_lost_increments (k : String) (evs : List Ev)
    (h : ∀ e ∈ evs, e.flushGetOk = true) (tf : Nat) :
    (flushBuffer true true tf (runTrace s0 evs)).store k = countVisits k evs := by
  have h0 : Inv k 0 s0 := ⟨nodupKeys_nil, rfl⟩
  have hrun := runTrace_inv k evs 0 s0 h h0
  rw [Nat.zero_add] at hrun
  have hfin := flushBuffer_inv true tf k _ _ hrun
  have hb := flushBuffer_true_true_buffer tf (runTrace s0 evs)
  have hv := hfin.2
  rw [hb, lookupD] at hv
  omega

theorem c1_no_lost_increments_witness :
    (∀ e ∈ evsC1, e.flushGetOk = true) ∧
    (flushBuffer true true 300 (runTrace s0 evsC1)).store "home" = countVisits "home" evsC1 :=
  ⟨by decide, c1_no_lost_increments "home" evsC1 (by decide) 300⟩

theorem cacheRefresh_apply (st : String → Nat) (now : Nat) (keys : List String)
    (c : String → Option CacheEntry) (k : String) :
    cacheRefresh c st now keys k =
      if k ∈ keys then (c k).map (fun _ => (⟨st k, now⟩ : CacheEntry)) else c k := by
  induction keys generalizing c with
  | nil => simp [cacheRefresh]
  | cons j t ih =>
    rw [cacheRefresh]
    by_cases hj : (c j).isSome
    · rw [if_pos hj, ih]
      by_cases hk : k = j
      · subst hk
        obtain ⟨e, he⟩ := Option.isSome_iff_exists.mp hj
        by_cases hm : k ∈ t
        · simp [hm, he]
        · simp [hm, he]
      · simp [hk]
    · rw [if_neg hj, ih]
      have hn : c j = none := Option.not_isSome_iff_eq_none.mp hj
      by_cases hk : k = j
      · subst hk
        by_cases hm : k ∈ t
        · simp [hm, hn]
        · simp [hm, hn]
      · simp [hk]

/-- Claim C2: the code violates it.  On a flush whose batched write succeeds
but whose post-success cache-refresh read raises, the catch-all `except`
re-merges the snapshot into the write buffer although the `INCRBY`s were
already applied: the store holds the delta and the buffer holds it again, so
the next successful flush applies it a second time (store ends at 2 after a
single recorded increment). -/
theorem c2_double_count_on_refresh_failure :
    (flushBuffer true false 5 stateCachedHome).store "home" = 1 ∧
    lookupD (flushBuffer true false 5 stateCachedHome).buffer "home" = 1 ∧
    (flushBuffer true true 10 (flushBuffer true false 5 stateCachedHome)).store "home" = 2 := by
  decide

/-- Claim C3 counterexample: at time 30 a `recordVisit("home")` triggers a
due flush whose batched write fails (the store still reads 0 and the
snapshot was re-merged, giving a buffered delta of 2), yet the call sets
`last_flush_time` from 0 to 30 instead of leaving it unchanged. -/
theorem c3_counterexample :
    (increment_visit false true true 30 "home" stateUncachedHome).1.lastFlushTime = 30 ∧
    stateUncachedHome.lastFlushTime = 0 ∧
    (increment_visit false true true 30 "home" stateUncachedHome).1.store "home" = 0 ∧
    lookupD (increment_visit false true true 30 "home" stateUncachedHome).1.buffer "home" = 2 := by
  decide

/-- Claim C3 (amended): whenever the due check passes and is reached — at
the start of every `increment_visit`, and in `get_visit_count` whenever the
key has no cache entry or only a stale one — the call sets
`last_flush_time` to the current time even when the flush's batched write
failed, so the next retry waits a further full flush interval rather than
happening promptly. -/
theorem c3_amended_lastFlushTime_always_advanced (feu fgu gu : Bool) (now : Nat)
    (k : String) (s : SvcState) (h : flush_interval ≤ now - s.lastFlushTime) :
    (increment_visit feu fgu gu now k s).1.lastFlushTime = now ∧
    (∀ e, s.cache k = some e → cache_ttl ≤ now - e.timestamp →
      (get_visit_count feu fgu gu now k s).1.lastFlushTime = now) ∧
    (s.cache k = none → (get_visit_count feu fgu gu now k s).1.lastFlushTime = now) := by
  refine ⟨?_, ?_, ?_⟩
  · show (dueFlushCheck feu fgu now s).lastFlushTime = now
    rw [dueFlushCheck, if_pos h]
  · intro e he ht
    have ht2 : ¬ (now - e.timestamp < cache_ttl) := not_lt.mpr ht
    simp only [get_visit_count, he]
    rw [if_neg ht2]
    show (dueFlushCheck feu fgu now s).lastFlushTime = now
    rw [dueFlushCheck, if_pos h]
  · intro hc
    simp only [get_visit_count, hc]
    show (dueFlushCheck feu fgu now s).lastFlushTime = now
    rw [dueFlushCheck, if_pos h]

theorem c3_amended_witness :
    flush_interval ≤ 30 - stateCachedHome.lastFlushTime ∧
    cache_ttl ≤ 30 - (0 : Nat) ∧
    (increment_visit false true true 30 "home" stateCachedHome).1.lastFlushTime = 30 ∧
    (get_visit_count false true true 30 "home" stateCachedHome).1.lastFlushTime = 30 :=
  ⟨by decide, by decide,
    (c3_amended_lastFlushTime_always_advanced false true true 30 "home"
      stateCachedHome (by decide)).1,
    (c3_amended_lastFlushTime_always_advanced false true true 30 "home"
      stateCachedHome (by decide)).2.1 ⟨1, 0⟩ rfl (by decide)⟩

/-- Claim C4 counterexample: a successful flush of the snapshot
`[("home", 1)]` from a state in which "home" has no cache entry leaves the
cache without any entry for "home" (the refresh loop only touches keys
already present in `_cache`), although the durable total was updated to 1. -/
theorem c4_counterexample :
    (flushBuffer true true 50 stateUncachedHome).cache "home" = none ∧
    (flushBuffer true true 50 stateUncachedHome).store "home" = 1 := by
  decide

/-- Claim C4 (amended): after a successful flush of a nonempty buffer, a
snapshot key that already has a cache entry gets its entry set to the new
durable total with a fresh timestamp, but a snapshot key without a cache
entry is left without one. -/
theorem c4_amended_refresh_only_cached_keys (now : Nat) (s : SvcState)
    (k : String) (hb : s.buffer ≠ []) :
    (k ∈ s.buffer.map Prod.fst → (s.cache k).isSome = true →
      (flushBuffer true true now s).cache k
        = some ⟨(flushBuffer true true now s).store k, now⟩) ∧
    (s.cache k = none → (flushBuffer true true now s).cache k = none) := by
  rw [flushBuffer, if_neg hb, if_pos rfl,
    if_pos (by simp : (true || s.buffer.all fun p => (s.cache p.1).isNone) = true)]
  constructor
  · intro hm hs
    show cacheRefresh s.cache (applyDeltas s.store s.buffer) now
        (s.buffer.map Prod.fst) k
      = some ⟨applyDeltas s.store s.buffer k, now⟩
    rw [cacheRefresh_apply, if_pos hm]
    cases hc : s.cache k with
    | some e => simp
    | none =>
      rw [hc] at hs
      simp at hs
  · intro hc
    show cacheRefresh s.cache (applyDeltas s.store s.buffer) now
        (s.buffer.map Prod.fst) k = none
    rw [cacheRefresh_apply]
    by_cases hm : k ∈ s.buffer.map Prod.fst <;> simp [hm, hc]

theorem c4_amended_witness :
    (flushBuffer true true 50 stateCachedHome).cache "home"
      = some ⟨(flushBuffer true true 50 stateCachedHome).store "home", 50⟩ :=
  (c4_amended_refresh_only_cached_keys 50 stateCachedHome "home" (by decide)).1
    (by decide) (by decide)

/-- Claim C5: `increment_visit` first runs the due-flush check, then adds
exactly 1 to the key's write-buffer entry (and to no other entry), then —
the store read succeeding — returns the durable store value plus the key's
buffered delta including the just-added increment, and stores that same
total in the read cache with a fresh timestamp. -/
theorem c5_record_visit_behaviour (feu fgu : Bool) (now : Nat) (k j : String)
    (s : SvcState) :
    (increment_visit feu fgu true now k s).2.visits
        = (dueFlushCheck feu fgu now s).store k
          + (lookupD (dueFlushCheck feu fgu now s).buffer k + 1) ∧
    lookupD (increment_visit feu fgu true now k s).1.buffer j
        = lookupD (dueFlushCheck feu fgu now s).buffer j
          + (if k = j then 1 else 0) ∧
    (increment_visit feu fgu true now k s).1.cache k
        = some ⟨(increment_visit feu fgu true now k s).2.visits, now⟩ := by
  refine ⟨?_, ?_, ?_⟩
  · show (if true then (dueFlushCheck feu fgu now s).store k else 0)
        + lookupD (addD (dueFlushCheck feu fgu now s).buffer k 1) k = _
    rw [if_pos rfl, lookupD_addD, if_pos rfl]
  · show lookupD (addD (dueFlushCheck feu fgu now s).buffer k 1) j = _
    rw [lookupD_addD]
  · show (if k = k then some (⟨_, now⟩ : CacheEntry)
        else (dueFlushCheck feu fgu now s).cache k) = _
    rw [if_pos rfl]
    rfl

/-- Claim C6 counterexample: with the store unreachable, `increment_visit`
returns exactly the same tag "redis" that it returns when the store read
succeeds, so no distinct degraded tag exists for a failed store call; a
fresh cache hit in `get_visit_count` is tagged "in_memory". -/
theorem c6_counterexample :
    (increment_visit true true false 0 "home" s0).2.served_via = "redis" ∧
    (increment_visit true true true 0 "home" s0).2.served_via = "redis" ∧
    (get_visit_count true true false 2 "home"
        (increment_visit true true false 0 "home" s0).1).2.served_via = "in_memory" := by
  decide

/-- Claim C6 (amended): the implementation's tags are "redis" and
"in_memory", not the spec's three enums: `increment_visit` answers "redis"
whether or not the store read succeeded, and `get_visit_count` answers
"in_memory" exactly on a fresh cache hit and "redis" otherwise, again
whether or not the store read succeeded. -/
theorem c6_amended_served_via_tags (feu fgu gu : Bool) (now : Nat) (k : String)
    (s : SvcState) :
    (increment_visit feu fgu gu now k s).2.served_via = "redis" ∧
    (get_visit_count feu fgu gu now k s).2.served_via =
      (match s.cache k with
       | some e => if now - e.timestamp < cache_ttl then "in_memory" else "redis"
       | none => "redis") := by
  constructor
  · rfl
  · cases hc : s.cache k with
    | some e =>
      by_cases ht : now - e.timestamp < cache_ttl
      · simp [get_visit_count, hc, ht]
      · simp [get_visit_count, hc, ht, readMiss]
    | none => simp [get_visit_count, hc, readMiss]

/-- Claim C7: with a cache entry present, `get_visit_count` serves the
cached value and leaves the whole state untouched exactly when the entry is
younger than `cache_ttl`; once the entry's age reaches `cache_ttl` it does
not serve it, but re-reads the store, adds the buffered delta and refreshes
the cache entry with a fresh timestamp. -/
theorem c7_cache_freshness_bound (feu fgu : Bool) (now : Nat) (k : String)
    (s : SvcState) (e : CacheEntry) (h : s.cache k = some e) :
    (now - e.timestamp < cache_ttl →
      get_visit_count feu fgu true now k s = (s, ⟨e.count, "in_memory"⟩)) ∧
    (cache_ttl ≤ now - e.timestamp →
      (get_visit_count feu fgu true now k s).2.visits
          = (dueFlushCheck feu fgu now s).store k
            + lookupD (dueFlushCheck feu fgu now s).buffer k ∧
      (get_visit_count feu fgu true now k s).1.cache k
          = some ⟨(get_visit_count feu fgu true now k s).2.visits, now⟩) := by
  constructor
  · intro ht
    simp [get_visit_count, h, ht]
  · intro ht
    have ht2 : ¬ (now - e.timestamp < cache_ttl) := not_lt.mpr ht
    constructor
    · simp [get_visit_count, h, ht2, readMiss]
    · simp [get_visit_count, h, ht2, readMiss]

theorem c7_witness :
    stateCachedHome.cache "home" = some ⟨1, 0⟩ ∧
    get_visit_count true true true 3 "home" stateCachedHome
      = (stateCachedHome, ⟨1, "in_memory"⟩) :=
  ⟨rfl, (c7_cache_freshness_bound true true 3 "home" stateCachedHome ⟨1, 0⟩
    rfl).1 (by decide)⟩

/-- A flush whose batched write fails leaves cache, store and timestamp
unchanged and restores every buffered delta. -/
theorem flushBuffer_false_effects (fgu : Bool) (now : Nat) (s : SvcState) :
    (flushBuffer false fgu now s).cache = s.cache ∧
    (flushBuffer false fgu now s).store = s.store ∧
    (flushBuffer false fgu now s).lastFlushTime = s.lastFlushTime ∧
    (NodupKeys s.buffer → NodupKeys (flushBuffer false fgu now s).buffer ∧
      ∀ k, lookupD (flushBuffer false fgu now s).buffer k = lookupD s.buffer k) := by
  rw [flushBuffer]
  by_cases hb : s.buffer = []
  · rw [if_pos hb]
    exact ⟨rfl, rfl, rfl, fun hn => ⟨hn, fun k => rfl⟩⟩
  · rw [if_neg hb, if_neg (by simp)]
    refine ⟨rfl, rfl, rfl,
      fun hn => ⟨nodupKeys_remergeInto [] _ nodupKeys_nil, fun k => ?_⟩⟩
    show lookupD (remergeInto [] s.buffer) k = _
    rw [lookupD_remergeInto, ← lookupD_eq_keySum _ _ hn, lookupD]
    omega

theorem dueFlushCheck_false_deg (fgu : Bool) (now : Nat) (k : String) (n : Nat)
    (s : SvcState) (h : DegInv k n s) : DegInv k n (dueFlushCheck false fgu now s) := by
  rw [dueFlushCheck]
  by_cases hd : flush_interval ≤ now - s.lastFlushTime
  · rw [if_pos hd]
    obtain ⟨hn, hl, hc⟩ := h
    have hf := flushBuffer_false_effects fgu now s
    refine ⟨(hf.2.2.2 hn).1, ?_, ?_⟩
    · show lookupD (flushBuffer false fgu now s).buffer k = n
      rw [(hf.2.2.2 hn).2 k, hl]
    · intro e he
      apply hc
      rw [← congrFun hf.1 k]
      exact he
  · rw [if_neg hd]
    exact h

/-- One store-down `increment_visit` bumps the degraded invariant by one and
reports the buffered total. -/
theorem degStep (k : String) (n t : Nat) (s : SvcState) (h : DegInv k n s) :
    DegInv k (n + 1) (increment_visit false false false t k s).1 ∧
    (increment_visit false false false t k s).2.visits = n + 1 := by
  obtain ⟨hn, hl, hc⟩ := dueFlushCheck_false_deg false t k n s h
  have hv : (increment_visit false false false t k s).2.visits = n + 1 := by
    show (if false = true then (dueFlushCheck false false t s).store k else 0)
        + lookupD (addD (dueFlushCheck false false t s).buffer k 1) k = n + 1
    rw [if_neg (by simp), lookupD_addD, if_pos rfl, hl]
    omega
  refine ⟨⟨nodupKeys_addD _ _ _ hn, ?_, ?_⟩, hv⟩
  · show lookupD (addD (dueFlushCheck false false t s).buffer k 1) k = n + 1
    rw [lookupD_addD, if_pos rfl, hl]
  · intro e he
    have hck : (increment_visit false false false t k s).1.cache k
        = some ⟨(increment_visit false false false t k s).2.visits, t⟩ := by
      show (if k = k then _ else (dueFlushCheck false false t s).cache k) = _
      rw [if_pos rfl]
      rfl
    rw [hck] at he
    rw [← Option.some.inj he]
    exact hv

theorem degradedRun_deg (k : String) (ts : List Nat) :
    ∀ (n : Nat) (s : SvcState), DegInv k n s →
      DegInv k (n + ts.length) (degradedRun k s ts) := by
  induction ts with
  | nil =>
    intro n s h
    simpa [degradedRun] using h
  | cons t ts ih =>
    intro n s h
    have harith : n + (t :: ts).length = (n + 1) + ts.length := by
      simp [List.length_cons]
      omega
    rw [harith, degradedRun]
    exact ih (n + 1) _ (degStep k n t s h).1

/-- With the store down, `get_visit_count` reports exactly the degraded
invariant's count, whether it hits the cache or recomputes from the buffer. -/
theorem degRead (k : String) (n tr : Nat) (s : SvcState) (h : DegInv k n s) :
    (get_visit_count false false false tr k s).2.visits = n := by
  obtain ⟨hn, hl, hc⟩ := h
  cases hcc : s.cache k with
  | some e =>
    by_cases ht : tr - e.timestamp < cache_ttl
    · simp [get_visit_count, hcc, ht, hc e hcc]
    · have h2 := dueFlushCheck_false_deg false tr k n s ⟨hn, hl, hc⟩
      simp [get_visit_count, hcc, ht, readMiss]
      exact h2.2.1
  | none =>
    have h2 := dueFlushCheck_false_deg false tr k n s ⟨hn, hl, hc⟩
    simp [get_visit_count, hcc, readMiss]
    exact h2.2.1

/-- Claim C8: degraded-mode value correctness.  With every store call
failing, a run of `recordVisit(k)` calls from the fresh service still
accumulates each increment in the write buffer with the durable part taken
as 0: the K-th `recordVisit` returns K, and a subsequent `readCount(k)` —
still with the store down — returns K, computed from the buffer alone. -/
theorem c8_degraded_mode_correctness (k : String) (ts : List Nat) (tr : Nat) :
    (get_visit_count false false false tr k (degradedRun k s0 ts)).2.visits
        = ts.length ∧
    ∀ t, (increment_visit false false false t k (degradedRun k s0 ts)).2.visits
        = ts.length + 1 := by
  have h0 : DegInv k 0 s0 := by
    refine ⟨nodupKeys_nil, rfl, fun e he => ?_⟩
    simp [s0] at he
  have hrun := degradedRun_deg k ts 0 s0 h0
  rw [Nat.zero_add] at hrun
  exact ⟨degRead k ts.length tr _ hrun,
    fun t => (degStep k ts.length t _ hrun).2⟩

/-- Claim C9: total responsiveness.  For every input key, time, prior state
and pattern of store failures, both operations return a response whose tag
is one of the two strings the implementation uses; no failure pattern
escapes as an error (every raising Redis call of the source sits inside a
`try`, which the embedding reflects by the operations being total
functions into `SvcState × Response`). -/
theorem c9_total_response (feu fgu gu : Bool) (now : Nat) (k : String)
    (s : SvcState) :
    ((increment_visit feu fgu gu now k s).2.served_via = "redis" ∨
      (increment_visit feu fgu gu now k s).2.served_via = "in_memory") ∧
    ((get_visit_count feu fgu gu now k s).2.served_via = "redis" ∨
      (get_visit_count feu fgu gu now k s).2.served_via = "in_memory") := by
  constructor
  · left
    rfl
  · cases hc : s.cache k with
    | some e =>
      by_cases ht : now - e.timestamp < cache_ttl
      · right
        simp [get_visit_count, hc, ht]
      · left
        simp [get_visit_count, hc, ht, readMiss]
    | none =>
      left
      simp [get_visit_count, hc, readMiss]

/-- Claim C10: a `recordVisit` served while the store read fails computes a
buffer-only total and writes it into the read cache with a fresh timestamp
exactly like a successful read; while that entry is younger than
`cache_ttl`, `get_visit_count` for the key returns the degraded value as an
ordinary cache hit and leaves the state unchanged — even though its own
store read would now succeed. -/
theorem c10_degraded_value_cached (feu fgu feu2 fgu2 : Bool) (t tr : Nat)
    (k : String) (s : SvcState) (h : tr - t < cache_ttl) :
    (increment_visit feu fgu false t k s).2.visits
        = lookupD (increment_visit feu fgu false t k s).1.buffer k ∧
    get_visit_count feu2 fgu2 true tr k (increment_visit feu fgu false t k s).1
      = ((increment_visit feu fgu false t k s).1,
         ⟨(increment_visit feu fgu false t k s).2.visits, "in_memory"⟩) := by
  have hck : (increment_visit feu fgu false t k s).1.cache k
      = some ⟨(increment_visit feu fgu false t k s).2.visits, t⟩ := by
    show (if k = k then _ else (dueFlushCheck feu fgu t s).cache k) = _
    rw [if_pos rfl]
    rfl
  constructor
  · show (if false = true then (dueFlushCheck feu fgu t s).store k else 0)
        + lookupD (addD (dueFlushCheck feu fgu t s).buffer k 1) k
      = lookupD (addD (dueFlushCheck feu fgu t s).buffer k 1) k
    simp
  · simp [get_visit_count, hck, h]

theorem c10_witness :
    4 - 0 < cache_ttl ∧
    get_visit_count true true true 4 "home"
        (increment_visit true true false 0 "home" s0).1
      = ((increment_visit true true false 0 "home" s0).1,
         ⟨(increment_visit true true false 0 "home" s0).2.visits, "in_memory"⟩) :=
  ⟨by decide,
    (c10_degraded_value_cached true true true true 0 4 "home" s0 (by decide)).2⟩

end VisitCounter
